import Mathlib

/-!
Verification development for the composed-domain-models repository.

The repository derives read-only "view" objects from raw API records by
running an ordered pipeline of mapping units ("enhancers"/"behaviors")
over one source record and shallow-merging each unit's returned partial
object onto an accumulator (src/models/function/utils/composeModel.ts).
Three behavior mappers (author, timestamps, watchable), the relation
helpers (withHasOne / withHasMany), and a parallel class/mixin
realization (src/models/class) are embedded below.

Modelling conventions:
- JavaScript runtime values are the inductive `JVal`; objects are
  association lists (`Obj`) in which a later entry shadows an earlier
  one, so the JS spread `{...a, ...b}` is embedded as list append and
  property lookup (`objGet`) takes the last matching entry.  Key order
  is not observed by any claim.
- Exceptions are modelled with `Except`: a mapping unit returns
  `Except ε JVal`, never-failing code returns `.ok`.
- JS `selectorOrValue` configuration (a literal or a function of the
  source) is the sum type `SelectorOrValue`.
- Dates are epoch milliseconds, `Option Int` with `none` standing for
  JS "Invalid Date"; `new Date(string)` parsing and the wall clock are
  parameters (`parse`, `now`) since their values are host-defined.
- The re-entrant `build` callback of composeModel is not passed to the
  embedded units: no unit in the repository and no claim uses it.
-/

/-- A JavaScript runtime value, as far as the claims observe it.
`date none` is JS "Invalid Date" (a truthy object). -/
inductive JVal where
  | undef
  | null
  | bool (b : Bool)
  | num (n : Int)
  | str (s : String)
  | date (ms : Option Int)
  | obj (fields : List (String × JVal))
  | arr (elems : List JVal)

/-- A JS object: association list, later entries shadow earlier ones. -/
abbrev Obj := List (String × JVal)

/-- JS truthiness.  (`Int` has no NaN; no claim involves NaN.) -/
def truthy : JVal → Bool
  | .undef => false
  | .null => false
  | .bool b => b
  | .num n => n != 0
  | .str s => !s.isEmpty
  | .date _ => true
  | .obj _ => true
  | .arr _ => true

/-- Is the value `null` or `undefined` (the values skipped by JS `??`). -/
def jNullish : JVal → Bool
  | .undef => true
  | .null => true
  | _ => false

/-- JS nullish coalescing `a ?? b`. -/
def jCoalesce (a b : JVal) : JVal := if jNullish a then b else a

/-- Property lookup: the last binding of the key wins (JS objects keep a
single binding per key; in the append model the last entry is it). -/
def objGet : Obj → String → Option JVal
  | [], _ => none
  | (k', v) :: rest, k =>
    match objGet rest k with
    | some w => some w
    | none => if k' = k then some v else none

/-- JS property access `o[k]`: `undefined` when the key is absent. -/
def objGetJS (o : Obj) (k : String) : JVal := (objGet o k).getD JVal.undef

/-- JS `k in o`. -/
def hasKey : Obj → String → Bool
  | [], _ => false
  | (k', _) :: rest, k => if k' = k then true else hasKey rest k

/-- Own enumerable entries contributed by spreading a value into an
object literal: objects give their fields, arrays and strings their
indexed elements, primitives nothing. -/
def spreadEntries : JVal → List (String × JVal)
  | .obj fields => fields
  | .arr elems => elems.enum.map (fun p => (toString p.1, p.2))
  | .str s => s.data.enum.map (fun p => (toString p.1, JVal.str (String.mk [p.2])))
  | _ => []

/-- `partial || {}` in composeModel: a falsy unit return is replaced by
the empty object. -/
def jOrElseEmpty (v : JVal) : JVal := if truthy v then v else .obj []

/-- A mapping unit (enhancer): sees the source record and the
accumulator, returns a partial object or raises. -/
abbrev EnhancerE (S ε : Type) := S → Obj → Except ε JVal

/-- The loop body of composeModel's `build`: for each enhancer in order,
`acc = {...acc, ...(enhancer(source, acc) || {})}`; an exception aborts. -/
def runEnhancers (source : S) : List (EnhancerE S ε) → Obj → Except ε Obj
  | [], acc => .ok acc
  | e :: rest, acc =>
    match e source acc with
    | .error ex => .error ex
    | .ok pv => runEnhancers source rest (acc ++ spreadEntries (jOrElseEmpty pv))

/-- composeModel (src/models/function/utils/composeModel.ts): run the
pipeline over the source starting from the empty accumulator. -/
def composeModel (source : S) (enhancers : List (EnhancerE S ε)) : Except ε Obj :=
  runEnhancers source enhancers []

/-! ### Lemmas about the engine -/

theorem objGet_append (a b : Obj) (k : String) :
    objGet (a ++ b) k =
      match objGet b k with
      | some w => some w
      | none => objGet a k := by
  induction a with
  | nil => cases h : objGet b k <;> simp [objGet, h]
  | cons p tl ih =>
    obtain ⟨k', v⟩ := p
    have hstep : objGet ((k', v) :: (tl ++ b)) k =
        match objGet (tl ++ b) k with
        | some w => some w
        | none => if k' = k then some v else none := rfl
    rw [List.cons_append, hstep, ih]
    cases h : objGet b k <;> cases h' : objGet tl k <;> simp [objGet, h']

theorem hasKey_append (a b : Obj) (k : String) :
    hasKey (a ++ b) k = (hasKey a k || hasKey b k) := by
  induction a with
  | nil => simp [hasKey]
  | cons p tl ih =>
    obtain ⟨k', v⟩ := p
    simp only [List.cons_append, hasKey]
    by_cases h : k' = k <;> simp [h, ih]

theorem objGet_eq_none_of_hasKey_false (o : Obj) (k : String)
    (h : hasKey o k = false) : objGet o k = none := by
  induction o with
  | nil => rfl
  | cons p tl ih =>
    obtain ⟨k', v⟩ := p
    simp only [hasKey] at h
    by_cases hk : k' = k
    · simp [hk] at h
    · simp only [hk, if_false] at h
      simp [objGet, ih h, hk]

theorem hasKey_eq_false_of_objGet_none (o : Obj) (k : String)
    (h : objGet o k = none) : hasKey o k = false := by
  induction o with
  | nil => rfl
  | cons p tl ih =>
    obtain ⟨k', v⟩ := p
    simp only [objGet] at h
    cases hr : objGet tl k with
    | some w => simp [hr] at h
    | none =>
      rw [hr] at h
      by_cases hk : k' = k
      · simp [hk] at h
      · simp [hasKey, hk, ih hr]

theorem hasKey_true_of_objGet_some (o : Obj) (k : String) (v : JVal)
    (h : objGet o k = some v) : hasKey o k = true := by
  by_contra hc
  rw [objGet_eq_none_of_hasKey_false o k (by revert hc; cases hasKey o k <;> simp)] at h
  exact Option.noConfusion h

theorem runEnhancers_append_ok {S ε : Type} (s : S)
    (xs ys : List (EnhancerE S ε)) (acc acc' : Obj)
    (h : runEnhancers s xs acc = .ok acc') :
    runEnhancers s (xs ++ ys) acc = runEnhancers s ys acc' := by
  induction xs generalizing acc with
  | nil =>
    simp only [runEnhancers] at h
    injection h with h
    rw [List.nil_append, h]
  | cons e tl ih =>
    simp only [runEnhancers, List.cons_append] at h ⊢
    cases he : e s acc with
    | error ex => simp [he] at h
    | ok pv =>
      simp only [he] at h ⊢
      exact ih _ h

theorem runEnhancers_no_contrib {S ε : Type} (s : S) (k : String) :
    ∀ (es : List (EnhancerE S ε)) (acc view : Obj),
    (∀ e ∈ es, ∀ acc' pv, e s acc' = .ok pv →
      hasKey (spreadEntries (jOrElseEmpty pv)) k = false) →
    runEnhancers s es acc = .ok view → objGet view k = objGet acc k := by
  intro es
  induction es with
  | nil =>
    intro acc view _ h
    simp only [runEnhancers] at h
    injection h with h
    rw [h]
  | cons e tl ih =>
    intro acc view hno hrun
    simp only [runEnhancers] at hrun
    cases he : e s acc with
    | error ex => simp [he] at hrun
    | ok pv =>
      simp only [he] at hrun
      have htl := ih (acc ++ spreadEntries (jOrElseEmpty pv)) view
        (fun e' he' => hno e' (List.mem_cons_of_mem _ he')) hrun
      rw [htl, objGet_append,
        objGet_eq_none_of_hasKey_false _ _ (hno e (List.mem_cons_self _ _) acc pv he)]

theorem runEnhancers_hasKey_mono {S ε : Type} (s : S) (k : String) :
    ∀ (es : List (EnhancerE S ε)) (acc view : Obj),
    runEnhancers s es acc = .ok view → hasKey acc k = true → hasKey view k = true := by
  intro es
  induction es with
  | nil =>
    intro acc view h hk
    simp only [runEnhancers] at h
    injection h with h
    rw [← h]; exact hk
  | cons e tl ih =>
    intro acc view hrun hk
    simp only [runEnhancers] at hrun
    cases he : e s acc with
    | error ex => simp [he] at hrun
    | ok pv =>
      simp only [he] at hrun
      exact ih _ _ hrun (by rw [hasKey_append, hk, Bool.true_or])

/-! ### Claim C1: later unit in pipeline order wins on key collision -/

/-- C1: for every pipeline, source record and output key, the Derived
View returned by composeModel maps the key to the value contributed by
the last unit in pipeline order that outputs it: each unit's partial is
shallow-merged onto the accumulator left to right, its keys overriding
same-named existing keys (earlier units, in `es1`, may also have output
the key). -/
theorem composeModel_later_unit_wins {S ε : Type} (s : S)
    (es1 es2 : List (EnhancerE S ε)) (e : EnhancerE S ε)
    (acc : Obj) (pv : JVal) (view : Obj) (k : String) (v : JVal)
    (h1 : runEnhancers s es1 [] = .ok acc)
    (h2 : e s acc = .ok pv)
    (h3 : objGet (spreadEntries (jOrElseEmpty pv)) k = some v)
    (h4 : ∀ e' ∈ es2, ∀ acc' pv', e' s acc' = .ok pv' →
      hasKey (spreadEntries (jOrElseEmpty pv')) k = false)
    (h5 : composeModel s (es1 ++ e :: es2) = .ok view) :
    objGet view k = some v := by
  unfold composeModel at h5
  rw [runEnhancers_append_ok s es1 (e :: es2) [] acc h1] at h5
  simp only [runEnhancers, h2] at h5
  rw [runEnhancers_no_contrib s k es2 _ view h4 h5, objGet_append, h3]

/-- Witness for C1: a pipeline of two units both writing key "x"; the
view holds the second unit's value. -/
theorem composeModel_later_unit_wins_witness :
    objGet [("x", JVal.num 1), ("x", JVal.num 2)] "x" = some (JVal.num 2) :=
  composeModel_later_unit_wins ()
    ([fun _ _ => Except.ok (JVal.obj [("x", JVal.num 1)])] : List (EnhancerE Unit Unit)) []
    (fun _ _ => Except.ok (JVal.obj [("x", JVal.num 2)]))
    [("x", JVal.num 1)] (JVal.obj [("x", JVal.num 2)])
    [("x", JVal.num 1), ("x", JVal.num 2)] "x" (JVal.num 2)
    rfl rfl rfl (fun e' he' => absurd he' (List.not_mem_nil e')) rfl

/-! ### Claim C2: a raising unit aborts the derivation, exception unchanged -/

/-- C2: if a mapping unit raises, composeModel propagates that exact
exception (`.error ex`, unmodified) and produces no view: the result
carries no partial accumulator, and source records are immutable in the
embedding (units are pure functions of them). -/
theorem composeModel_error_propagates {S ε : Type} (s : S)
    (es1 es2 : List (EnhancerE S ε)) (e : EnhancerE S ε)
    (acc : Obj) (ex : ε)
    (h1 : runEnhancers s es1 [] = .ok acc)
    (h2 : e s acc = .error ex) :
    composeModel s (es1 ++ e :: es2) = .error ex := by
  unfold composeModel
  rw [runEnhancers_append_ok s es1 (e :: es2) [] acc h1]
  simp only [runEnhancers, h2]

/-- Witness for C2: a first unit succeeds, the second raises "boom";
the whole derivation is that error even with a third unit pending. -/
theorem composeModel_error_propagates_witness :
    composeModel ()
      [fun _ _ => Except.ok (JVal.obj [("a", JVal.num 1)]),
       fun _ _ => Except.error "boom",
       fun _ _ => Except.ok (JVal.obj [("b", JVal.num 2)])]
      = (Except.error "boom" : Except String Obj) :=
  composeModel_error_propagates ()
    [fun _ _ => Except.ok (JVal.obj [("a", JVal.num 1)])]
    [fun _ _ => Except.ok (JVal.obj [("b", JVal.num 2)])]
    (fun _ _ => Except.error "boom")
    [("a", JVal.num 1)] "boom" rfl rfl

/-! ### Claim C10: a falsy unit return is treated as an empty partial -/

/-- C10: a unit returning a falsy value (null, undefined, false, 0, "")
does not make composeModel raise: the falsy return is replaced by the
empty object (`partial || {}` in the source), the unit contributes no
keys, and the derivation continues exactly as if the unit were absent. -/
theorem composeModel_falsy_return_skipped {S ε : Type} (s : S)
    (es1 es2 : List (EnhancerE S ε)) (e : EnhancerE S ε)
    (acc : Obj) (pv : JVal)
    (h1 : runEnhancers s es1 [] = .ok acc)
    (h2 : e s acc = .ok pv)
    (h3 : truthy pv = false) :
    composeModel s (es1 ++ e :: es2) = composeModel s (es1 ++ es2) := by
  unfold composeModel
  rw [runEnhancers_append_ok s es1 (e :: es2) [] acc h1,
    runEnhancers_append_ok s es1 es2 [] acc h1]
  simp [runEnhancers, h2, jOrElseEmpty, h3, spreadEntries]

/-- Witness for C10: a unit returning `null` between two contributing
units; the derivation equals the two-unit pipeline and succeeds. -/
theorem composeModel_falsy_return_skipped_witness :
    (composeModel ()
      [fun _ _ => Except.ok (JVal.obj [("a", JVal.num 1)]),
       fun _ _ => Except.ok JVal.null,
       fun _ _ => Except.ok (JVal.obj [("b", JVal.num 2)])]
      = composeModel (ε := Unit) ()
        [fun _ _ => Except.ok (JVal.obj [("a", JVal.num 1)]),
         fun _ _ => Except.ok (JVal.obj [("b", JVal.num 2)])]) ∧
    composeModel (ε := Unit) ()
      [fun _ _ => Except.ok (JVal.obj [("a", JVal.num 1)]),
       fun _ _ => Except.ok JVal.null,
       fun _ _ => Except.ok (JVal.obj [("b", JVal.num 2)])]
      = Except.ok [("a", JVal.num 1), ("b", JVal.num 2)] :=
  ⟨composeModel_falsy_return_skipped ()
      [fun _ _ => Except.ok (JVal.obj [("a", JVal.num 1)])]
      [fun _ _ => Except.ok (JVal.obj [("b", JVal.num 2)])]
      (fun _ _ => Except.ok JVal.null)
      [("a", JVal.num 1)] JVal.null rfl rfl rfl,
    rfl⟩

/-! ### Selector resolution and relation helpers (src/models/function/utils/relations.ts) -/

/-- A configuration value that is either a literal or a function of the
source record (`SelectorOrValue` in src/models/*/types.ts). -/
abbrev SelectorOrValue (S R : Type) := R ⊕ (S → R)

/-- resolveSelector: apply the function form, return the literal form. -/
def resolveSelector (source : S) : SelectorOrValue S R → R
  | .inl v => v
  | .inr f => f source

/-- withHasOne: `raw = resolveSelector(source, from)`;
`value = raw ? transform(raw) : null`; returns `{ [key]: value }`.
An exception from `transform` propagates. -/
def withHasOne (key : String) (frm : SelectorOrValue S JVal)
    (transform : JVal → Except ε JVal) : EnhancerE S ε :=
  fun source _acc =>
    let raw := resolveSelector source frm
    if truthy raw then
      match transform raw with
      | .ok m => .ok (JVal.obj [(key, m)])
      | .error ex => .error ex
    else .ok (JVal.obj [(key, JVal.null)])

/-- withHasMany: `raw = resolveSelector(source, from)`;
`value = raw ? raw.map(transform) : []`; returns `{ [key]: value }`.
On a truthy non-array, JS `raw.map` is not a function and throws a
TypeError, modelled by the `tyErr` parameter. -/
def withHasMany (key : String) (frm : SelectorOrValue S JVal)
    (transform : JVal → Except ε JVal) (tyErr : ε) : EnhancerE S ε :=
  fun source _acc =>
    let raw := resolveSelector source frm
    if truthy raw then
      match raw with
      | .arr elems =>
        match elems.mapM transform with
        | .ok ms => .ok (JVal.obj [(key, JVal.arr ms)])
        | .error ex => .error ex
      | _ => .error tyErr
    else .ok (JVal.obj [(key, JVal.arr [])])

/-! ### Claim C8: has-one totality on absent/falsy input -/

/-- C8: for a falsy selected raw value, withHasOne returns the
configured key mapped to null, for every transform (so it never raises
on absence); for a truthy raw value it returns the key mapped to the
transform of the raw value. -/
theorem withHasOne_spec {S ε : Type} :
    (∀ (key : String) (frm : SelectorOrValue S JVal)
       (transform : JVal → Except ε JVal) (s : S) (acc : Obj),
       truthy (resolveSelector s frm) = false →
       withHasOne key frm transform s acc = .ok (JVal.obj [(key, JVal.null)])) ∧
    (∀ (key : String) (frm : SelectorOrValue S JVal)
       (transform : JVal → Except ε JVal) (s : S) (acc : Obj) (m : JVal),
       truthy (resolveSelector s frm) = true →
       transform (resolveSelector s frm) = .ok m →
       withHasOne key frm transform s acc = .ok (JVal.obj [(key, m)])) := by
  constructor
  · intro key frm transform s acc h
    simp [withHasOne, h]
  · intro key frm transform s acc m h hm
    simp [withHasOne, h, hm]

/-- Witness for C8: an absent (`undefined`) relation with an
always-raising transform still yields `{project: null}` without error. -/
theorem withHasOne_spec_witness :
    withHasOne (S := Unit) "project" (Sum.inl JVal.undef)
      (fun _ => Except.error "nested boom") () [] =
      Except.ok (JVal.obj [("project", JVal.null)]) :=
  withHasOne_spec.1 "project" (Sum.inl JVal.undef)
    (fun _ => Except.error "nested boom") () [] rfl

/-! ### Claim C7: has-many on absent and non-array input -/

/-- Counterexample to C7 as stated: the claim says every selected raw
value that is "not an array" yields the empty array and never an
exception, but withHasMany only checks truthiness: a truthy non-array
(here the plain object `{}`) reaches `raw.map`, which throws a
TypeError, so the unit raises instead of returning `{items: []}`. -/
theorem withHasMany_nonarray_raises_cex :
    withHasMany (S := Unit) "items" (Sum.inl (JVal.obj []))
      (fun v => Except.ok v) () () [] = Except.error () ∧
    withHasMany (S := Unit) "items" (Sum.inl (JVal.obj []))
      (fun v => Except.ok v) () () [] ≠
      Except.ok (JVal.obj [("items", JVal.arr [])]) := by
  constructor
  · rfl
  · intro h
    have h' : (Except.error () : Except Unit JVal) =
        Except.ok (JVal.obj [("items", JVal.arr [])]) := h
    exact Except.noConfusion h'

/-- C7 (amended): for every selected raw value that is falsy (absent,
null, undefined, false, 0, ""), withHasMany returns the configured key
mapped to the empty array for every transform — never null, never
undefined, never an exception; for every selected array it returns the
element-wise image under the nested derive function; a truthy non-array
selected value (outside the declared selector type) raises. -/
theorem withHasMany_spec {S ε : Type} :
    (∀ (key : String) (frm : SelectorOrValue S JVal)
       (transform : JVal → Except ε JVal) (tyErr : ε) (s : S) (acc : Obj),
       truthy (resolveSelector s frm) = false →
       withHasMany key frm transform tyErr s acc =
         .ok (JVal.obj [(key, JVal.arr [])])) ∧
    (∀ (key : String) (frm : SelectorOrValue S JVal)
       (transform : JVal → Except ε JVal) (tyErr : ε) (s : S) (acc : Obj)
       (elems ms : List JVal),
       resolveSelector s frm = JVal.arr elems →
       elems.mapM transform = .ok ms →
       withHasMany key frm transform tyErr s acc =
         .ok (JVal.obj [(key, JVal.arr ms)])) ∧
    (∀ (key : String) (frm : SelectorOrValue S JVal)
       (transform : JVal → Except ε JVal) (tyErr : ε) (s : S) (acc : Obj),
       truthy (resolveSelector s frm) = true →
       (∀ elems, resolveSelector s frm ≠ JVal.arr elems) →
       withHasMany key frm transform tyErr s acc = .error tyErr) := by
  refine ⟨?_, ?_, ?_⟩
  · intro key frm transform tyErr s acc h
    simp [withHasMany, h]
  · intro key frm transform tyErr s acc elems ms h hm
    have hm' : List.mapM.loop transform elems [] = Except.ok ms := hm
    simp [withHasMany, h, truthy, hm']
  · intro key frm transform tyErr s acc h hne
    simp only [withHasMany]
    rw [if_pos h]

/-- Witness for C7 (amended): a `null` collection with an
always-raising transform yields `{comments: []}` without error. -/
theorem withHasMany_spec_witness :
    withHasMany (S := Unit) "comments" (Sum.inl JVal.null)
      (fun _ => Except.error "nested boom") "type error" () [] =
      Except.ok (JVal.obj [("comments", JVal.arr [])]) :=
  withHasMany_spec.1 "comments" (Sum.inl JVal.null)
    (fun _ => Except.error "nested boom") "type error" () [] rfl

/-! ### Behavior mapper: timestamps (src/models/function/behaviors/timestamps.ts) -/

/-- A raw date-like source value: `string | number | Date` in the
source's `TimestampedSource` constraint.  A `date` carries its epoch
milliseconds, `none` for JS Invalid Date. -/
inductive DateValue where
  | str (s : String)
  | num (n : Int)
  | date (d : Option Int)

/-- TimestampedSource: the four optional raw fields the mapper reads. -/
structure TimestampedSource where
  createdAt : Option DateValue := none
  updatedAt : Option DateValue := none
  created_at : Option DateValue := none
  updated_at : Option DateValue := none

/-- TimestampsOptions: optional override selectors. -/
structure TimestampsOptions (S : Type) where
  createdAt : Option (SelectorOrValue S DateValue) := none
  updatedAt : Option (SelectorOrValue S DateValue) := none

/-- The Timestamped capability: two resolved datetimes (epoch ms,
`none` = Invalid Date). -/
structure Timestamped where
  createdAt : Option Int
  updatedAt : Option Int

/-- toDate: `undefined` gives `new Date()` (the wall clock `now`), a
Date passes through unchanged, a number is epoch ms, a string goes
through the host's `new Date(string)` parser (`parse`). -/
def toDate (now : Int) (parse : String → Option Int) : Option DateValue → Option Int
  | none => some now
  | some (.date d) => d
  | some (.num n) => some n
  | some (.str s) => parse s

/-- withTimestamps (function realization): for each field, the explicit
override selector if supplied, else `source.createdAt ?? source.created_at`
(resp. updated), then toDate. -/
def withTimestamps (now : Int) (parse : String → Option Int)
    (opts : TimestampsOptions TimestampedSource)
    (source : TimestampedSource) : Timestamped :=
  let createdAtValue : Option DateValue :=
    match opts.createdAt with
    | some sel => some (resolveSelector source sel)
    | none => source.createdAt <|> source.created_at
  let updatedAtValue : Option DateValue :=
    match opts.updatedAt with
    | some sel => some (resolveSelector source sel)
    | none => source.updatedAt <|> source.updated_at
  { createdAt := toDate now parse createdAtValue,
    updatedAt := toDate now parse updatedAtValue }

/-- Class-mixin realization of the createdAt getter
(src/models/class/mixins/timestamps.ts, `WithTimestamps`). -/
def classTimestamps_createdAt (now : Int) (parse : String → Option Int)
    (opts : TimestampsOptions TimestampedSource)
    (source : TimestampedSource) : Option Int :=
  match opts.createdAt with
  | some sel => toDate now parse (some (resolveSelector source sel))
  | none => toDate now parse (source.createdAt <|> source.created_at)

/-- Class-mixin realization of the updatedAt getter. -/
def classTimestamps_updatedAt (now : Int) (parse : String → Option Int)
    (opts : TimestampsOptions TimestampedSource)
    (source : TimestampedSource) : Option Int :=
  match opts.updatedAt with
  | some sel => toDate now parse (some (resolveSelector source sel))
  | none => toDate now parse (source.updatedAt <|> source.updated_at)

/-- C5: for each of createdAt and updatedAt independently,
withTimestamps resolves the raw value as: the explicit override
selector if supplied; otherwise the camelCase source field; otherwise
the snake_case source field; otherwise the current wall-clock time; a
value already a datetime passes through toDate unchanged; and a source
with both `createdAt` and `created_at` derives the camelCase value. -/
theorem withTimestamps_resolution (now : Int) (parse : String → Option Int) :
    (∀ (sel : SelectorOrValue TimestampedSource DateValue)
       (uo : Option (SelectorOrValue TimestampedSource DateValue))
       (s : TimestampedSource),
       (withTimestamps now parse ⟨some sel, uo⟩ s).createdAt =
         toDate now parse (some (resolveSelector s sel))) ∧
    (∀ (uo : Option (SelectorOrValue TimestampedSource DateValue))
       (s : TimestampedSource) (v : DateValue),
       (withTimestamps now parse ⟨none, uo⟩ { s with createdAt := some v }).createdAt =
         toDate now parse (some v)) ∧
    (∀ (uo : Option (SelectorOrValue TimestampedSource DateValue))
       (s : TimestampedSource) (v : DateValue),
       (withTimestamps now parse ⟨none, uo⟩
         { s with createdAt := none, created_at := some v }).createdAt =
         toDate now parse (some v)) ∧
    (∀ (uo : Option (SelectorOrValue TimestampedSource DateValue))
       (s : TimestampedSource),
       (withTimestamps now parse ⟨none, uo⟩
         { s with createdAt := none, created_at := none }).createdAt = some now) ∧
    (∀ (sel : SelectorOrValue TimestampedSource DateValue)
       (co : Option (SelectorOrValue TimestampedSource DateValue))
       (s : TimestampedSource),
       (withTimestamps now parse ⟨co, some sel⟩ s).updatedAt =
         toDate now parse (some (resolveSelector s sel))) ∧
    (∀ (co : Option (SelectorOrValue TimestampedSource DateValue))
       (s : TimestampedSource) (v : DateValue),
       (withTimestamps now parse ⟨co, none⟩ { s with updatedAt := some v }).updatedAt =
         toDate now parse (some v)) ∧
    (∀ (co : Option (SelectorOrValue TimestampedSource DateValue))
       (s : TimestampedSource) (v : DateValue),
       (withTimestamps now parse ⟨co, none⟩
         { s with updatedAt := none, updated_at := some v }).updatedAt =
         toDate now parse (some v)) ∧
    (∀ (co : Option (SelectorOrValue TimestampedSource DateValue))
       (s : TimestampedSource),
       (withTimestamps now parse ⟨co, none⟩
         { s with updatedAt := none, updated_at := none }).updatedAt = some now) ∧
    (∀ d : Option Int, toDate now parse (some (DateValue.date d)) = d) ∧
    (withTimestamps now parse ⟨none, none⟩
      { createdAt := some (DateValue.str "2024-01-01T00:00:00Z"),
        created_at := some (DateValue.str "2099-01-01T00:00:00Z") }).createdAt =
      parse "2024-01-01T00:00:00Z" := by
  refine ⟨fun sel uo s => rfl, fun uo s v => rfl, fun uo s v => rfl,
    fun uo s => rfl, fun sel co s => rfl, fun co s v => rfl, fun co s v => rfl,
    fun co s => rfl, fun d => rfl, rfl⟩

/-! ### Behavior mapper: watchable (src/models/function/behaviors/watchable.ts) -/

/-- WatchableSource: the optional `isWatched` boolean on the source. -/
structure WatchableSource where
  isWatched : Option Bool := none

/-- WatchableOptions: watcherType and watcherId (literal or selector),
optional isWatched override. -/
structure WatchableOptions (S : Type) where
  watcherType : SelectorOrValue S String
  watcherId : SelectorOrValue S String
  isWatched : Option (SelectorOrValue S Bool) := none

/-- A JS view of the optional source boolean (an absent field reads as
`undefined`). -/
def optBoolToJVal : Option Bool → JVal
  | none => JVal.undef
  | some b => JVal.bool b

/-- withWatchable (function realization), as a pipeline unit: resolves
watcherType and watcherId, and isWatched by
`opts.isWatched` override, else `acc.isWatched ?? source.isWatched ?? false`. -/
def withWatchable (opts : WatchableOptions WatchableSource) :
    EnhancerE WatchableSource ε :=
  fun source acc =>
    let watcherType := resolveSelector source opts.watcherType
    let watcherId := resolveSelector source opts.watcherId
    let isWatched : JVal :=
      match opts.isWatched with
      | some sel => JVal.bool (resolveSelector source sel)
      | none =>
        jCoalesce (jCoalesce (objGetJS acc "isWatched")
          (optBoolToJVal source.isWatched)) (JVal.bool false)
    .ok (JVal.obj [("isWatched", isWatched),
      ("watcherType", JVal.str watcherType),
      ("watcherId", JVal.str watcherId)])

/-- Class-mixin realization of the isWatched getter
(src/models/class/mixins/watchable.ts, `WithWatchable`): override
selector if supplied, else `source.isWatched ?? false` — the class
realization has no accumulator. -/
def classIsWatched (opts : WatchableOptions WatchableSource)
    (source : WatchableSource) : Bool :=
  match opts.isWatched with
  | some sel => resolveSelector source sel
  | none => source.isWatched.getD false

theorem jNullish_bool (b : Bool) : jNullish (JVal.bool b) = false := rfl

theorem jNullish_undef : jNullish JVal.undef = true := rfl

/-- C4: the derived isWatched is the resolved construction-time
override selector when supplied; otherwise the isWatched value present
in the accumulator; otherwise the source's isWatched field; otherwise
false.  In particular source `{isWatched: false}` plus an override
selector returning true derives isWatched = true. -/
theorem withWatchable_isWatched_resolution (ε : Type) :
    (∀ (wt wi : SelectorOrValue WatchableSource String)
       (sel : SelectorOrValue WatchableSource Bool)
       (s : WatchableSource) (acc : Obj),
       withWatchable (ε := ε) ⟨wt, wi, some sel⟩ s acc =
         .ok (JVal.obj [("isWatched", JVal.bool (resolveSelector s sel)),
           ("watcherType", JVal.str (resolveSelector s wt)),
           ("watcherId", JVal.str (resolveSelector s wi))])) ∧
    (∀ (wt wi : SelectorOrValue WatchableSource String)
       (s : WatchableSource) (acc : Obj) (b : Bool),
       objGetJS acc "isWatched" = JVal.bool b →
       withWatchable (ε := ε) ⟨wt, wi, none⟩ s acc =
         .ok (JVal.obj [("isWatched", JVal.bool b),
           ("watcherType", JVal.str (resolveSelector s wt)),
           ("watcherId", JVal.str (resolveSelector s wi))])) ∧
    (∀ (wt wi : SelectorOrValue WatchableSource String)
       (acc : Obj) (b : Bool),
       jNullish (objGetJS acc "isWatched") = true →
       withWatchable (ε := ε) ⟨wt, wi, none⟩ ⟨some b⟩ acc =
         .ok (JVal.obj [("isWatched", JVal.bool b),
           ("watcherType", JVal.str (resolveSelector ⟨some b⟩ wt)),
           ("watcherId", JVal.str (resolveSelector ⟨some b⟩ wi))])) ∧
    (∀ (wt wi : SelectorOrValue WatchableSource String) (acc : Obj),
       jNullish (objGetJS acc "isWatched") = true →
       withWatchable (ε := ε) ⟨wt, wi, none⟩ ⟨none⟩ acc =
         .ok (JVal.obj [("isWatched", JVal.bool false),
           ("watcherType", JVal.str (resolveSelector ⟨none⟩ wt)),
           ("watcherId", JVal.str (resolveSelector ⟨none⟩ wi))])) ∧
    withWatchable (ε := ε)
      ⟨Sum.inl "task", Sum.inl "t1", some (Sum.inr (fun _ => true))⟩
      ⟨some false⟩ [] =
      .ok (JVal.obj [("isWatched", JVal.bool true),
        ("watcherType", JVal.str "task"), ("watcherId", JVal.str "t1")]) := by
  refine ⟨fun wt wi sel s acc => rfl, ?_, ?_, ?_, rfl⟩
  · intro wt wi s acc b hb
    simp [withWatchable, hb, jCoalesce, jNullish]
  · intro wt wi acc b hn
    simp [withWatchable, jCoalesce, hn, optBoolToJVal, jNullish_bool]
  · intro wt wi acc hn
    simp [withWatchable, jCoalesce, hn, optBoolToJVal, jNullish_undef]

/-- Witness for C4: with no override and an accumulator entry
`isWatched: true` from an earlier unit, the accumulator value wins over
the source's `isWatched: false`. -/
theorem withWatchable_isWatched_resolution_witness :
    withWatchable (ε := Unit) ⟨Sum.inl "task", Sum.inl "t1", none⟩
      ⟨some false⟩ [("isWatched", JVal.bool true)] =
      .ok (JVal.obj [("isWatched", JVal.bool true),
        ("watcherType", JVal.str "task"), ("watcherId", JVal.str "t1")]) :=
  (withWatchable_isWatched_resolution Unit).2.1 (Sum.inl "task") (Sum.inl "t1")
    ⟨some false⟩ [("isWatched", JVal.bool true)] true rfl

/-! ### Behavior mapper: author (src/models/function/behaviors/author.ts) -/

/-- The embedded author/user object shape of `AuthoredSource`. -/
structure AuthorObjFields where
  id : String
  name : Option String := none
  username : Option String := none
  displayName : Option String := none
  avatar : Option String := none
  avatarUrl : Option String := none
  avatar_url : Option String := none

/-- AuthoredSource: the API patterns the author mapper recognizes. -/
structure AuthoredSource where
  author : Option AuthorObjFields := none
  authorId : Option String := none
  author_id : Option String := none
  userId : Option String := none
  user_id : Option String := none
  user : Option AuthorObjFields := none

/-- The normalized AuthorInfo `{id, name, avatarUrl?}`. -/
structure AuthorInfo where
  id : String
  name : String
  avatarUrl : Option String := none

/-- AuthorOptions: per-field override selectors. -/
structure AuthorOptions (S : Type) where
  author : Option (SelectorOrValue S AuthorInfo) := none
  authorId : Option (SelectorOrValue S String) := none
  authorName : Option (SelectorOrValue S String) := none
  avatarUrl : Option (SelectorOrValue S (Option String)) := none

/-- JS truthiness of the `opts.avatarUrl` configuration value itself
(the scalar branch tests `opts.avatarUrl ?`, not `!== undefined`): a
function is truthy, the literal undefined and the literal "" are falsy. -/
def selOptStrTruthy : Option (SelectorOrValue S (Option String)) → Bool
  | none => false
  | some (.inr _) => true
  | some (.inl none) => false
  | some (.inl (some s)) => !s.isEmpty

/-- extractAuthor (function realization): explicit author selector,
else embedded author/user object with name and avatar alias ladders,
else the scalar-id fallback. -/
def extractAuthor (source : AuthoredSource)
    (opts : AuthorOptions AuthoredSource) : AuthorInfo :=
  match opts.author with
  | some sel => resolveSelector source sel
  | none =>
    match source.author <|> source.user with
    | some authorObj =>
      let name :=
        match opts.authorName with
        | some sel => resolveSelector source sel
        | none =>
          ((authorObj.displayName <|> authorObj.name) <|> authorObj.username).getD
            "Unknown"
      let avatarUrl :=
        match opts.avatarUrl with
        | some sel => resolveSelector source sel
        | none => (authorObj.avatarUrl <|> authorObj.avatar_url) <|> authorObj.avatar
      { id := authorObj.id, name := name, avatarUrl := avatarUrl }
    | none =>
      let authorId :=
        match opts.authorId with
        | some sel => resolveSelector source sel
        | none =>
          (((source.authorId <|> source.author_id) <|> source.userId) <|>
            source.user_id).getD "unknown"
      let authorName :=
        match opts.authorName with
        | some sel => resolveSelector source sel
        | none => "Unknown"
      { id := authorId, name := authorName,
        avatarUrl :=
          match opts.avatarUrl with
          | some sel =>
            if selOptStrTruthy (some sel) then resolveSelector source sel else none
          | none => none }

/-- Class-mixin realization of extractAuthor
(src/models/class/mixins/author.ts): same ladder, getter-cached on the
instance; caching is invisible to the pure semantics. -/
def classExtractAuthor (source : AuthoredSource)
    (opts : AuthorOptions AuthoredSource) : AuthorInfo :=
  match opts.author with
  | some sel => resolveSelector source sel
  | none =>
    match source.author <|> source.user with
    | some authorObj =>
      let name :=
        match opts.authorName with
        | some sel => resolveSelector source sel
        | none =>
          ((authorObj.displayName <|> authorObj.name) <|> authorObj.username).getD
            "Unknown"
      let avatarUrl :=
        match opts.avatarUrl with
        | some sel => resolveSelector source sel
        | none => (authorObj.avatarUrl <|> authorObj.avatar_url) <|> authorObj.avatar
      { id := authorObj.id, name := name, avatarUrl := avatarUrl }
    | none =>
      let authorId :=
        match opts.authorId with
        | some sel => resolveSelector source sel
        | none =>
          (((source.authorId <|> source.author_id) <|> source.userId) <|>
            source.user_id).getD "unknown"
      let authorName :=
        match opts.authorName with
        | some sel => resolveSelector source sel
        | none => "Unknown"
      { id := authorId, name := authorName,
        avatarUrl :=
          match opts.avatarUrl with
          | some sel =>
            if selOptStrTruthy (some sel) then resolveSelector source sel else none
          | none => none }

/-- The AuthorInfo object literal as a JS value (`avatarUrl` is a
present key even when undefined). -/
def encodeAuthorInfo (a : AuthorInfo) : JVal :=
  JVal.obj [("id", JVal.str a.id), ("name", JVal.str a.name),
    ("avatarUrl", match a.avatarUrl with
      | some u => JVal.str u
      | none => JVal.undef)]

/-- withAuthor as a pipeline unit: returns `{author: extractAuthor(...)}`. -/
def withAuthor (opts : AuthorOptions AuthoredSource) :
    EnhancerE AuthoredSource ε :=
  fun source _acc =>
    .ok (JVal.obj [("author", encodeAuthorInfo (extractAuthor source opts))])

/-- C6: withAuthor resolves the author capability by the ladder: an
explicit author selector verbatim; else an embedded author or user
object with id verbatim, name = displayName ?? name ?? username ??
"Unknown", avatarUrl = avatarUrl ?? avatar_url ?? avatar; else the
scalar fallback id = authorId ?? author_id ?? userId ?? user_id ??
"unknown", name "Unknown" and no avatar unless overridden.  In
particular `{author: {id: "u1", username: "bob"}}` derives
`{id: "u1", name: "bob", avatarUrl: undefined}`. -/
theorem extractAuthor_resolution :
    (∀ (s : AuthoredSource) (sel : SelectorOrValue AuthoredSource AuthorInfo)
       (aio : Option (SelectorOrValue AuthoredSource String))
       (ano : Option (SelectorOrValue AuthoredSource String))
       (avo : Option (SelectorOrValue AuthoredSource (Option String))),
       extractAuthor s ⟨some sel, aio, ano, avo⟩ = resolveSelector s sel) ∧
    (∀ (s : AuthoredSource) (a : AuthorObjFields),
       extractAuthor { s with author := some a } ⟨none, none, none, none⟩ =
         { id := a.id,
           name := ((a.displayName <|> a.name) <|> a.username).getD "Unknown",
           avatarUrl := (a.avatarUrl <|> a.avatar_url) <|> a.avatar }) ∧
    (∀ (s : AuthoredSource) (a : AuthorObjFields),
       extractAuthor { s with author := none, user := some a }
         ⟨none, none, none, none⟩ =
         { id := a.id,
           name := ((a.displayName <|> a.name) <|> a.username).getD "Unknown",
           avatarUrl := (a.avatarUrl <|> a.avatar_url) <|> a.avatar }) ∧
    (∀ (s : AuthoredSource),
       extractAuthor { s with author := none, user := none }
         ⟨none, none, none, none⟩ =
         { id := (((s.authorId <|> s.author_id) <|> s.userId) <|>
             s.user_id).getD "unknown",
           name := "Unknown", avatarUrl := none }) ∧
    extractAuthor { author := some { id := "u1", username := some "bob" } }
      ⟨none, none, none, none⟩ =
      { id := "u1", name := "bob", avatarUrl := none } := by
  exact ⟨fun s sel aio ano avo => rfl, fun s a => rfl, fun s a => rfl,
    fun s => rfl, rfl⟩

/-! ### Capability guards (function and class realizations) -/

/-- isAuthored, function realization: a non-null object with an
"author" key.  (JVal arrays and dates are also `typeof "object"` in JS
but never carry an "author" own key, hence false.) -/
def fnIsAuthored : JVal → Bool
  | .obj fields => hasKey fields "author"
  | _ => false

/-- isAuthored, class realization (identical test). -/
def classIsAuthored : JVal → Bool
  | .obj fields => hasKey fields "author"
  | _ => false

/-- isTimestamped, function realization: both "createdAt" and
"updatedAt" keys present. -/
def fnIsTimestamped : JVal → Bool
  | .obj fields => hasKey fields "createdAt" && hasKey fields "updatedAt"
  | _ => false

/-- isTimestamped, class realization (identical test). -/
def classIsTimestamped : JVal → Bool
  | .obj fields => hasKey fields "createdAt" && hasKey fields "updatedAt"
  | _ => false

/-- isWatchable, function realization: only the "isWatched" key is
required. -/
def fnIsWatchable : JVal → Bool
  | .obj fields => hasKey fields "isWatched"
  | _ => false

/-- isWatchable, class realization: requires "isWatched", "watcherType"
and "watcherId". -/
def classIsWatchable : JVal → Bool
  | .obj fields =>
    hasKey fields "isWatched" && hasKey fields "watcherType" &&
      hasKey fields "watcherId"
  | _ => false

theorem runEnhancers_append_error {S ε : Type} (s : S)
    (xs ys : List (EnhancerE S ε)) (acc : Obj) (ex : ε)
    (h : runEnhancers s xs acc = .error ex) :
    runEnhancers s (xs ++ ys) acc = .error ex := by
  induction xs generalizing acc with
  | nil => simp [runEnhancers] at h
  | cons e tl ih =>
    simp only [runEnhancers, List.cons_append] at h ⊢
    cases he : e s acc with
    | error ex' => simp [he] at h ⊢; exact h
    | ok pv =>
      simp only [he] at h ⊢
      exact ih _ h

/-! ### Claim C9 -/

/-- Counterexample to C9 as stated: a pipeline that does not include
the Author mapper can still produce a view with an `author` key (here a
single custom unit returning `{author: null}`), and isAuthored is then
true — the guard tests key presence only, so "every pipeline without
the Author mapper yields isAuthored = false" fails.  The third conjunct
shows the unit is not `withAuthor opts` for any options (withAuthor
always maps `author` to an object, never to null). -/
theorem isAuthored_without_author_mapper_cex :
    composeModel ({} : AuthoredSource)
      [(fun _ _ => Except.ok (JVal.obj [("author", JVal.null)]) :
        EnhancerE AuthoredSource Unit)] =
      Except.ok [("author", JVal.null)] ∧
    fnIsAuthored (JVal.obj [("author", JVal.null)]) = true ∧
    ∀ opts : AuthorOptions AuthoredSource,
      withAuthor (ε := Unit) opts ≠
        fun _ _ => Except.ok (JVal.obj [("author", JVal.null)]) := by
  refine ⟨rfl, rfl, ?_⟩
  intro opts h
  have h2 := congrFun (congrFun h ({} : AuthoredSource)) []
  simp [withAuthor, encodeAuthorInfo] at h2

/-- C9 (amended): isAuthored is decided purely by presence of the
`author` key on the view.  For every succeeding pipeline none of whose
units outputs an `author` key, isAuthored(view) is false; for every
succeeding pipeline that includes the Author mapper, isAuthored(view)
is true (the mapper always contributes the key and merging never
removes keys). -/
theorem isAuthored_pipeline_correct :
    (∀ (s : AuthoredSource) (es : List (EnhancerE AuthoredSource Unit))
       (view : Obj),
       (∀ e ∈ es, ∀ acc pv, e s acc = .ok pv →
         hasKey (spreadEntries (jOrElseEmpty pv)) "author" = false) →
       composeModel s es = .ok view → fnIsAuthored (JVal.obj view) = false) ∧
    (∀ (s : AuthoredSource) (opts : AuthorOptions AuthoredSource)
       (es1 es2 : List (EnhancerE AuthoredSource Unit)) (view : Obj),
       composeModel s (es1 ++ withAuthor opts :: es2) = .ok view →
       fnIsAuthored (JVal.obj view) = true) := by
  constructor
  · intro s es view hno h
    have hg := runEnhancers_no_contrib s "author" es [] view hno h
    have hk := hasKey_eq_false_of_objGet_none view "author" (by rw [hg]; rfl)
    simpa [fnIsAuthored] using hk
  · intro s opts es1 es2 view h
    unfold composeModel at h
    cases hr : runEnhancers s es1 [] with
    | error ex =>
      rw [runEnhancers_append_error s es1 _ [] ex hr] at h
      exact Except.noConfusion h
    | ok acc =>
      rw [runEnhancers_append_ok s es1 _ [] acc hr] at h
      simp only [runEnhancers, withAuthor, jOrElseEmpty, truthy, if_true,
        spreadEntries] at h
      have hk : hasKey
          (acc ++ [("author", encodeAuthorInfo (extractAuthor s opts))])
          "author" = true := by
        rw [hasKey_append]
        simp [hasKey]
      have hv := runEnhancers_hasKey_mono s "author" es2 _ view h hk
      simpa [fnIsAuthored] using hv

/-- Witness for C9 (amended): the empty pipeline yields a view without
the author key (isAuthored false); the one-unit pipeline [withAuthor]
yields a view with it (isAuthored true). -/
theorem isAuthored_pipeline_correct_witness :
    fnIsAuthored (JVal.obj []) = false ∧
    fnIsAuthored (JVal.obj
      [("author", encodeAuthorInfo
        (extractAuthor {} ⟨none, none, none, none⟩))]) = true :=
  ⟨isAuthored_pipeline_correct.1 {} [] []
      (fun e he => absurd he (List.not_mem_nil e)) rfl,
    isAuthored_pipeline_correct.2 {} ⟨none, none, none, none⟩ [] []
      [("author", encodeAuthorInfo (extractAuthor {} ⟨none, none, none, none⟩))]
      rfl⟩

/-! ### Task base (src/models/function/task.ts `taskBase` and
src/models/class/task.ts `TaskBase`) -/

inductive TaskStatus where
  | todo
  | inProgress
  | done
deriving DecidableEq

inductive TaskPriority where
  | low
  | medium
  | high
deriving DecidableEq

/-- The core task fields both realizations read. -/
structure TaskBaseSource where
  id : String
  title : String
  body : String
  status : TaskStatus
  priority : Option TaskPriority := none
  tags : List String := []

/-- The observable base fields of a task view. -/
structure TaskBaseView where
  id : String
  title : String
  body : String
  status : TaskStatus
  priority : TaskPriority
  tags : List String
  summary : String
  isCompleted : Bool
  isHighPriority : Bool

/-- taskBase (function realization): plain fields, priority ?? "medium",
tags ?? [], and the computed getters; `isHighPriority` reads the raw
source priority. -/
def fnTaskBase (s : TaskBaseSource) : TaskBaseView :=
  { id := s.id, title := s.title, body := s.body, status := s.status,
    priority := s.priority.getD TaskPriority.medium,
    tags := s.tags,
    summary :=
      if s.body.length > 140 then s.body.take 140 ++ "..." else s.body,
    isCompleted := decide (s.status = TaskStatus.done),
    isHighPriority := decide (s.priority = some TaskPriority.high) }

/-- TaskBase (class realization): same getters, except `isHighPriority`
reads the defaulted `this.priority`. -/
def classTaskBase (s : TaskBaseSource) : TaskBaseView :=
  { id := s.id, title := s.title, body := s.body, status := s.status,
    priority := s.priority.getD TaskPriority.medium,
    tags := s.tags,
    summary :=
      if s.body.length > 140 then s.body.take 140 ++ "..." else s.body,
    isCompleted := decide (s.status = TaskStatus.done),
    isHighPriority :=
      decide (s.priority.getD TaskPriority.medium = TaskPriority.high) }

/-! ### Claim C3 -/

/-- Counterexample to C3 as stated: the capability guards do NOT
classify every object identically — `{isWatched: true}` satisfies the
function-style isWatchable but not the class-style one (which also
demands watcherType and watcherId) — and the isWatched precedence
differs: with source `{isWatched: false}` and an accumulator entry
`isWatched: true` from an earlier unit, the function realization
derives true while the class realization (which never consults an
accumulator) derives false. -/
theorem realizations_divergence_cex :
    (fnIsWatchable (JVal.obj [("isWatched", JVal.bool true)]) = true ∧
     classIsWatchable (JVal.obj [("isWatched", JVal.bool true)]) = false) ∧
    (withWatchable (ε := Unit) ⟨Sum.inl "task", Sum.inl "t1", none⟩
        ⟨some false⟩ [("isWatched", JVal.bool true)] =
        Except.ok (JVal.obj [("isWatched", JVal.bool true),
          ("watcherType", JVal.str "task"), ("watcherId", JVal.str "t1")]) ∧
     classIsWatched ⟨Sum.inl "task", Sum.inl "t1", none⟩ ⟨some false⟩ = false) := by
  exact ⟨⟨rfl, rfl⟩, ⟨rfl, rfl⟩⟩

/-- C3 (amended): the two realizations agree on the base task fields,
on author extraction, on timestamp resolution, and on the isAuthored
and isTimestamped guards; the watchable outputs agree whenever the
accumulator carries no (non-nullish) isWatched entry.  (They diverge
exactly where the counterexample shows: the isWatchable guards test
different key sets, and only the function realization consults the
accumulator for isWatched.) -/
theorem realizations_agree :
    (∀ s : TaskBaseSource, fnTaskBase s = classTaskBase s) ∧
    (∀ (s : AuthoredSource) (opts : AuthorOptions AuthoredSource),
       extractAuthor s opts = classExtractAuthor s opts) ∧
    (∀ (now : Int) (parse : String → Option Int)
       (opts : TimestampsOptions TimestampedSource) (s : TimestampedSource),
       (withTimestamps now parse opts s).createdAt =
         classTimestamps_createdAt now parse opts s ∧
       (withTimestamps now parse opts s).updatedAt =
         classTimestamps_updatedAt now parse opts s) ∧
    (∀ (opts : WatchableOptions WatchableSource) (s : WatchableSource)
       (acc : Obj),
       jNullish (objGetJS acc "isWatched") = true →
       withWatchable (ε := Unit) opts s acc =
         .ok (JVal.obj [("isWatched", JVal.bool (classIsWatched opts s)),
           ("watcherType", JVal.str (resolveSelector s opts.watcherType)),
           ("watcherId", JVal.str (resolveSelector s opts.watcherId))])) ∧
    (∀ v : JVal, fnIsAuthored v = classIsAuthored v) ∧
    (∀ v : JVal, fnIsTimestamped v = classIsTimestamped v) := by
  refine ⟨?_, fun s opts => rfl, ?_, ?_, fun v => rfl, fun v => rfl⟩
  · intro s
    obtain ⟨i, t, b, st, pr, tg⟩ := s
    cases pr with
    | none => rfl
    | some p => cases p <;> rfl
  · intro now parse opts s
    obtain ⟨co, uo⟩ := opts
    constructor
    · cases co <;> rfl
    · cases uo <;> rfl
  · intro opts s acc hn
    obtain ⟨wt, wi, iw⟩ := opts
    cases iw with
    | some sel => rfl
    | none =>
      cases hsw : s.isWatched with
      | some b =>
        simp [withWatchable, classIsWatched, jCoalesce, hn, hsw,
          optBoolToJVal, jNullish_bool]
      | none =>
        simp [withWatchable, classIsWatched, jCoalesce, hn, hsw,
          optBoolToJVal, jNullish_undef]

/-- Witness for C3 (amended): the two watchable realizations produce
the same view fields on an empty accumulator and empty source. -/
theorem realizations_agree_witness :
    withWatchable (ε := Unit) ⟨Sum.inl "task", Sum.inl "t1", none⟩ ⟨none⟩ [] =
      Except.ok (JVal.obj [("isWatched", JVal.bool false),
        ("watcherType", JVal.str "task"), ("watcherId", JVal.str "t1")]) :=
  realizations_agree.2.2.2.1 ⟨Sum.inl "task", Sum.inl "t1", none⟩ ⟨none⟩ [] rfl
